import Mathlib

/-!
Shallow embedding of the quantitative-analytics core of the
coinmarketcap-mcp-server repository (the technical-analysis and
historical-analysis tool modules), together with theorems settling the
frozen claims about it.

Numbers: the source is JavaScript and computes with IEEE doubles; the
embedding uses exact rationals (and reals where the source calls
Math.sqrt).  JavaScript `undefined` (out-of-bounds array reads) and the
NaN values that arithmetic on `undefined` produces are both modelled by
`none : Option ℚ`; every comparison `NaN > x`, `undefined > x`, … is
false in JavaScript, which the Option-level comparison below reproduces.
Dates appear in the source as ISO-format strings ordered like their
timestamps; the embedding represents a date by a natural number, so that
the chronological order on dates is the order on ℕ.
-/

/-- One OHLCV candle as consumed by the analytics helpers.  The helpers
embedded here read only the `close` price and the `date` field, so the
other fields (open/high/low/volume, timestamp) are omitted. -/
structure Candle where
  date : ℕ
  close : ℚ
deriving DecidableEq

/-- JavaScript `arr.reduce((sum, x) => sum + x, 0)`: a left fold of
addition starting from 0. -/
def jsSum (l : List ℚ) : ℚ := l.foldl (· + ·) 0

/-- JavaScript array indexing `arr[i]` on a numeric array: `undefined`
(modelled `none`) for every index outside `[0, arr.length)`. -/
def jsGet (l : List ℚ) (i : ℤ) : Option ℚ :=
  if i < 0 then none else l.get? i.toNat

/-- JavaScript array indexing on an array whose entries may themselves be
NaN (`Option ℚ` entries): out-of-bounds reads and NaN entries both
become `none`. -/
def jsGetOpt (l : List (Option ℚ)) (i : ℤ) : Option ℚ :=
  if i < 0 then none else (l.get? i.toNat).join

/-- NaN-propagating subtraction: in JavaScript, `a - b` is NaN when
either operand is NaN or `undefined`. -/
def optSub : Option ℚ → Option ℚ → Option ℚ
  | some a, some b => some (a - b)
  | _, _ => none

/-- NaN-propagating multiplication. -/
def optMul : Option ℚ → Option ℚ → Option ℚ
  | some a, some b => some (a * b)
  | _, _ => none

/-- NaN-propagating addition. -/
def optAdd : Option ℚ → Option ℚ → Option ℚ
  | some a, some b => some (a + b)
  | _, _ => none

/-- JavaScript `a > b` on possibly-NaN/undefined operands: any comparison
involving NaN or `undefined` is false. -/
def optGtB : Option ℚ → Option ℚ → Bool
  | some a, some b => decide (b < a)
  | _, _ => false

/-- `calculateReturns` (historical-analysis module): simple returns
`(close[i] - close[i-1]) / close[i-1]` for `i = 1 .. length-1`. -/
def calculateReturns (data : List Candle) : List ℚ :=
  let closes := data.map Candle.close
  (closes.zip closes.tail).map (fun p => (p.2 - p.1) / p.1)

/-- `calculateVariance`: population variance,
`Σ (r - mean)² / n` with `mean = Σ r / n`. -/
def calculateVariance (returns : List ℚ) : ℚ :=
  let mean := jsSum returns / (returns.length : ℚ)
  (returns.foldl (fun sum ret => sum + (ret - mean) ^ 2) 0) / (returns.length : ℚ)

/-- `calculateCovariance`: population covariance of two paired series.
The source iterates `returns1.reduce((sum, ret, i) => … returns2[i] …)`;
both call sites pass equal-length slices, which the `zip` reproduces. -/
def calculateCovariance (returns1 returns2 : List ℚ) : ℚ :=
  let mean1 := jsSum returns1 / (returns1.length : ℚ)
  let mean2 := jsSum returns2 / (returns2.length : ℚ)
  ((returns1.zip returns2).foldl
    (fun sum p => sum + (p.1 - mean1) * (p.2 - mean2)) 0) / (returns1.length : ℚ)

/-- `calculateBeta`: returns the default beta 1 when the two series have
different lengths or fewer than 2 points; otherwise trims both series to
the shorter length taken from the most recent end (`slice(-minLength)`,
a no-op on the equal-length path) and returns covariance / variance,
with 1 as the zero-variance fallback. -/
def calculateBeta (returns benchmarkReturns : List ℚ) : ℚ :=
  if returns.length ≠ benchmarkReturns.length ∨ returns.length < 2 then 1
  else
    let minLength := min returns.length benchmarkReturns.length
    let assetReturns := returns.drop (returns.length - minLength)
    let marketReturns := benchmarkReturns.drop (benchmarkReturns.length - minLength)
    let covariance := calculateCovariance assetReturns marketReturns
    let marketVariance := calculateVariance marketReturns
    if marketVariance = 0 then 1 else covariance / marketVariance

/-- `calculateVaR`: historical-simulation Value-at-Risk.  Sort the
returns ascending (the source sorts with comparator `(a, b) => a - b`;
`insertionSort` produces the identical sorted permutation), take the
entry at index `floor((1 - confidence) * n)`, and report it times 100.
A negative index reads `undefined` in JavaScript, modelled `none`. -/
def calculateVaR (returns : List ℚ) (confidence : ℚ) : Option ℚ :=
  let sortedReturns := returns.insertionSort (· ≤ ·)
  let index := ⌊(1 - confidence) * (sortedReturns.length : ℚ)⌋
  if index < 0 then none
  else (sortedReturns.get? index.toNat).map (fun r => r * 100)

/-- `calculateExpectedShortfall`: mean of the returns at or below the
VaR threshold (the VaR value divided back to a decimal), times 100;
falls back to the VaR value itself when no return qualifies.  When the
VaR read is `undefined`/NaN the whole computation is NaN (`none`). -/
def calculateExpectedShortfall (returns : List ℚ) (confidence : ℚ) : Option ℚ :=
  match calculateVaR returns confidence with
  | none => none
  | some v =>
    let varValue := v / 100
    let exceedances := returns.filter (fun ret => ret ≤ varValue)
    if exceedances.length = 0 then some (varValue * 100)
    else some ((jsSum exceedances / (exceedances.length : ℚ)) * 100)

/-- The data-sufficiency guard at the head of `calculateRiskMetrics`:
the whole risk-metrics operation throws exactly when the fetched candle
series has fewer than 10 points. -/
def calculateRiskMetricsCheck (historicalData : List Candle) : Except String Unit :=
  if historicalData.length < 10 then
    Except.error "Insufficient data for risk calculations"
  else Except.ok ()

/-- Result record of `calculateMaxDrawdown`.  `start_date`/`end_date`
are `none` while the source still holds its initial empty-string
sentinels, `some d` once a drawdown has been recorded. -/
structure DrawdownResult where
  max_drawdown_percent : ℚ
  peak_price : ℚ
  trough_price : ℚ
  start_date : Option ℕ
  end_date : Option ℕ
  duration_days : ℤ
deriving DecidableEq

/-- Loop state of `calculateMaxDrawdown`.  The source keeps `peakIndex`
and `troughIndex` and re-reads `data[peakIndex].date` and
`prices[troughIndex]`; since those indices are only ever set to the
iteration position `i` at the moment the corresponding date/price is
current, the state carries `peakDate` and `troughPrice` alongside the
indices with the values those reads produce. -/
structure MddState where
  maxDrawdown : ℚ
  peak : ℚ
  peakIndex : ℕ
  peakDate : ℕ
  troughIndex : ℕ
  troughPrice : ℚ
  startDate : Option ℕ
  endDate : Option ℕ
deriving DecidableEq

/-- One iteration of the `calculateMaxDrawdown` loop body at position
`i`: raise the running peak if exceeded, then record a new worst
drawdown `(peak - price) / peak` if it strictly beats the current one. -/
def mddStep (st : MddState) (i : ℕ) (c : Candle) : MddState :=
  let st1 := if st.peak < c.close then
      { st with peak := c.close, peakIndex := i, peakDate := c.date }
    else st
  let drawdown := (st1.peak - c.close) / st1.peak
  if st1.maxDrawdown < drawdown then
    { st1 with maxDrawdown := drawdown, troughIndex := i, troughPrice := c.close,
               startDate := some st1.peakDate, endDate := some c.date }
  else st1

/-- The `for (let i = 1; …)` loop of `calculateMaxDrawdown`. -/
def mddGo (st : MddState) (i : ℕ) : List Candle → MddState
  | [] => st
  | c :: rest => mddGo (mddStep st i c) (i + 1) rest

/-- `calculateMaxDrawdown`: single pass tracking a running peak; returns
the drawdown descriptor.  On an empty series the source would read
`prices[0]` as `undefined`; that unreachable case is modelled `none`. -/
def calculateMaxDrawdown (data : List Candle) : Option DrawdownResult :=
  match data with
  | [] => none
  | c0 :: rest =>
    let st := mddGo
      { maxDrawdown := 0, peak := c0.close, peakIndex := 0, peakDate := c0.date,
        troughIndex := 0, troughPrice := c0.close, startDate := none, endDate := none }
      1 rest
    some { max_drawdown_percent := st.maxDrawdown * 100,
           peak_price := st.peak,
           trough_price := st.troughPrice,
           start_date := st.startDate,
           end_date := st.endDate,
           duration_days := (st.troughIndex : ℤ) - (st.peakIndex : ℤ) }

/-- The per-step close-price changes `data[i].close - data[i-1].close`
computed at the head of `calculateRSI`. -/
def closeChanges (data : List Candle) : List ℚ :=
  let closes := data.map Candle.close
  (closes.zip closes.tail).map (fun p => p.2 - p.1)

/-- Wilder smoothing loop of `calculateRSI`: starting from the seeded
average gain/loss, fold over the remaining (gain, loss) pairs producing
one RSI value per step, with the `avgLoss || 0.01` epsilon guard. -/
def rsiLoop (period : ℕ) (avgGain avgLoss : ℚ) : List (ℚ × ℚ) → List ℚ
  | [] => []
  | (g, l) :: rest =>
    let ag := (avgGain * ((period : ℚ) - 1) + g) / (period : ℚ)
    let al := (avgLoss * ((period : ℚ) - 1) + l) / (period : ℚ)
    let rs := ag / (if al = 0 then 1 / 100 else al)
    (100 - 100 / (1 + rs)) :: rsiLoop period ag al rest

/-- Result record of `calculateRSI`.  `current_value` is the last entry
of the computed RSI series, `none` when that series is empty (the source
then reads `rsiValues[-1]` as `undefined`). -/
structure RsiResult where
  current_value : Option ℚ
  signal : String
  strength : Option ℚ
  historical_values : List ℚ
deriving DecidableEq

/-- The `gains` array of `calculateRSI`: the positive part of each
per-step change. -/
def rsiGains (data : List Candle) : List ℚ :=
  (closeChanges data).map (fun change => if 0 < change then change else 0)

/-- The `losses` array of `calculateRSI`: the absolute value of each
negative per-step change, 0 otherwise. -/
def rsiLosses (data : List Candle) : List ℚ :=
  (closeChanges data).map (fun change => if change < 0 then |change| else 0)

/-- The `rsiValues` array of `calculateRSI`: seed the average gain/loss
with the simple mean of the first `period` gains/losses, then run the
Wilder smoothing loop over the remaining (gain, loss) pairs. -/
def rsiValues (data : List Candle) (period : ℕ) : List ℚ :=
  rsiLoop period
    (jsSum ((rsiGains data).take period) / (period : ℚ))
    (jsSum ((rsiLosses data).take period) / (period : ℚ))
    (((rsiGains data).zip (rsiLosses data)).drop period)

/-- `calculateRSI`: throws below `period + 1` candles; otherwise reports
the last Wilder-smoothed RSI value.  The signal comparisons on an
`undefined` current value are both false, giving `neutral`, exactly as
in JavaScript. -/
def calculateRSI (data : List Candle) (period : ℕ) : Except String RsiResult :=
  if data.length < period + 1 then
    Except.error "Insufficient data for RSI calculation"
  else
    Except.ok
      { current_value := (rsiValues data period).getLast?,
        signal := match (rsiValues data period).getLast? with
          | some v => if 70 < v then "overbought"
                      else if v < 30 then "oversold" else "neutral"
          | none => "neutral",
        strength := ((rsiValues data period).getLast?).map (fun v => |50 - v| / 50),
        historical_values := (rsiValues data period).drop
          ((rsiValues data period).length - 10) }

/-- The EMA recurrence `ema[i] = (price[i] - ema[i-1]) * k + ema[i-1]`
unfolded along the tail of the price list. -/
def emaFrom (k : ℚ) (prev : ℚ) : List ℚ → List ℚ
  | [] => []
  | p :: ps =>
    let e := (p - prev) * k + prev
    e :: emaFrom k e ps

/-- `calculateEMAValues`: multiplier `2 / (period + 1)`, seeded with the
first price.  Always called on a non-empty price list; the empty case is
modelled as the empty list. -/
def calculateEMAValues (prices : List ℚ) (period : ℕ) : List ℚ :=
  match prices with
  | [] => []
  | p :: ps => p :: emaFrom (2 / ((period : ℚ) + 1)) p ps

/-- The EMA recurrence lifted over possibly-NaN entries, used by
`calculateMACD` when it takes an EMA of the MACD line. -/
def emaFromOpt (k : ℚ) (prev : Option ℚ) : List (Option ℚ) → List (Option ℚ)
  | [] => []
  | p :: ps =>
    let e := optAdd (optMul (optSub p prev) (some k)) prev
    e :: emaFromOpt k e ps

/-- `calculateEMAValues` applied to an array with possibly-NaN entries. -/
def calculateEMAValuesOpt (prices : List (Option ℚ)) (period : ℕ) : List (Option ℚ) :=
  match prices with
  | [] => []
  | p :: ps => p :: emaFromOpt (2 / ((period : ℚ) + 1)) p ps

/-- Result record of `calculateMACD` (the crossover/divergence fields,
which no claim concerns, are omitted). -/
structure MacdResult where
  macd_line : Option ℚ
  signal_line : Option ℚ
  histogram : Option ℚ
  signal : String
deriving DecidableEq

/-- The `macdLine` array of `calculateMACD`:
`fastEMA[i] - slowEMA[i - (fastPeriod - slowPeriod)]` for
`i = slowPeriod - 1 .. fastEMA.length - 1`.  With the default periods
the inner index is `i - (12 - 26) = i + 14`, past the end of `slowEMA`
for the last 14 positions, so those entries are NaN (`none`). -/
def macdLineOf (data : List Candle) (fastPeriod slowPeriod : ℕ) : List (Option ℚ) :=
  let closes := data.map Candle.close
  let fastEMA := calculateEMAValues closes fastPeriod
  let slowEMA := calculateEMAValues closes slowPeriod
  (List.range' (slowPeriod - 1) (fastEMA.length - (slowPeriod - 1))).map
    (fun i : ℕ => optSub (jsGet fastEMA (i : ℤ))
      (jsGet slowEMA ((i : ℤ) - ((fastPeriod : ℤ) - (slowPeriod : ℤ)))))

/-- The `signalLine` array of `calculateMACD`: EMA of the MACD line. -/
def macdSignalLineOf (data : List Candle) (fastPeriod slowPeriod signalPeriod : ℕ) :
    List (Option ℚ) :=
  calculateEMAValuesOpt (macdLineOf data fastPeriod slowPeriod) signalPeriod

/-- The `histogram` array of `calculateMACD`:
`macdLine[i] - signalLine[i - (signalPeriod - 1)]` for
`i = signalPeriod - 1 .. macdLine.length - 1`. -/
def macdHistogramOf (data : List Candle) (fastPeriod slowPeriod signalPeriod : ℕ) :
    List (Option ℚ) :=
  (List.range' (signalPeriod - 1)
      ((macdLineOf data fastPeriod slowPeriod).length - (signalPeriod - 1))).map
    (fun i : ℕ => optSub (jsGetOpt (macdLineOf data fastPeriod slowPeriod) (i : ℤ))
      (jsGetOpt (macdSignalLineOf data fastPeriod slowPeriod signalPeriod)
        ((i : ℤ) - ((signalPeriod : ℤ) - 1))))

/-- `calculateMACD`: guard `length < slow + signal`, then report the
last entries of the MACD line, signal line and histogram, and the
bullish/bearish comparison of the current MACD value against the
current signal value. -/
def calculateMACD (data : List Candle) (fastPeriod slowPeriod signalPeriod : ℕ) :
    Except String MacdResult :=
  if data.length < slowPeriod + signalPeriod then
    Except.error "Insufficient data for MACD calculation"
  else
    Except.ok
      { macd_line := jsGetOpt (macdLineOf data fastPeriod slowPeriod)
          (((macdLineOf data fastPeriod slowPeriod).length : ℤ) - 1),
        signal_line := jsGetOpt (macdSignalLineOf data fastPeriod slowPeriod signalPeriod)
          (((macdSignalLineOf data fastPeriod slowPeriod signalPeriod).length : ℤ) - 1),
        histogram := jsGetOpt (macdHistogramOf data fastPeriod slowPeriod signalPeriod)
          (((macdHistogramOf data fastPeriod slowPeriod signalPeriod).length : ℤ) - 1),
        signal := if optGtB
            (jsGetOpt (macdLineOf data fastPeriod slowPeriod)
              (((macdLineOf data fastPeriod slowPeriod).length : ℤ) - 1))
            (jsGetOpt (macdSignalLineOf data fastPeriod slowPeriod signalPeriod)
              (((macdSignalLineOf data fastPeriod slowPeriod signalPeriod).length : ℤ) - 1))
          then "bullish" else "bearish" }

/-- One contributing signal as consumed by `calculateOverallSignal`. -/
structure TradingSignal where
  signal : String
  weight : ℚ
deriving DecidableEq

/-- `getSignalThreshold`: decision threshold per strategy profile, with
`|| 60` as the unknown-strategy fallback. -/
def getSignalThreshold (strategy : String) : ℚ :=
  if strategy = "conservative" then 70
  else if strategy = "moderate" then 60
  else if strategy = "aggressive" then 55
  else 60

/-- Accumulator pass of `calculateOverallSignal`: total weight, bullish
weight (signals tagged bullish/buy) and bearish weight (bearish/sell). -/
def signalScores (signals : List TradingSignal) : ℚ × ℚ × ℚ :=
  signals.foldl
    (fun acc s =>
      if s.signal = "bullish" ∨ s.signal = "buy" then
        (acc.1 + s.weight, acc.2.1, acc.2.2 + s.weight)
      else if s.signal = "bearish" ∨ s.signal = "sell" then
        (acc.1, acc.2.1 + s.weight, acc.2.2 + s.weight)
      else (acc.1, acc.2.1, acc.2.2 + s.weight))
    (0, 0, 0)

/-- `calculateOverallSignal`: normalize bullish/bearish weight into
percentages of the total weight, compare with the strategy threshold
(buy wins over sell), and cap `|bullish% - bearish%|` at 100 for the
confidence. -/
def calculateOverallSignal (signals : List TradingSignal) (strategy : String) : String × ℚ :=
  let scores := signalScores signals
  let bullishPercentage := scores.1 / scores.2.2 * 100
  let bearishPercentage := scores.2.1 / scores.2.2 * 100
  let threshold := getSignalThreshold strategy
  let overallSignal :=
    if threshold < bullishPercentage then "buy"
    else if threshold < bearishPercentage then "sell"
    else "hold"
  (overallSignal, min |bullishPercentage - bearishPercentage| 100)

/-- The bullish percentage as the spec describes it (§4.5): total weight
of bullish/buy signals, normalized by total weight, on a 0-100 scale.
Stated independently of the implementation's accumulator pass so the two
can be compared. -/
def specBullishPercent (signals : List TradingSignal) : ℚ :=
  ((signals.filter (fun s => s.signal = "bullish" ∨ s.signal = "buy")).map
    TradingSignal.weight).sum / (signals.map TradingSignal.weight).sum * 100

/-- The bearish percentage as the spec describes it (§4.5). -/
def specBearishPercent (signals : List TradingSignal) : ℚ :=
  ((signals.filter (fun s => s.signal = "bearish" ∨ s.signal = "sell")).map
    TradingSignal.weight).sum / (signals.map TradingSignal.weight).sum * 100

/-- The accumulation loop of `calculateCorrelation`: numerator
`Σ diff1·diff2` and the two sums of squares `Σ diff1²`, `Σ diff2²`. -/
noncomputable def corrAccum (mean1 mean2 : ℝ) (pairs : List (ℝ × ℝ)) : ℝ × ℝ × ℝ :=
  pairs.foldl
    (fun acc p =>
      (acc.1 + (p.1 - mean1) * (p.2 - mean2),
       acc.2.1 + (p.1 - mean1) * (p.1 - mean1),
       acc.2.2 + (p.2 - mean2) * (p.2 - mean2)))
    ((0 : ℝ), (0 : ℝ), (0 : ℝ))

/-- `calculateCorrelation`: Pearson correlation; 0 for mismatched or
short inputs, 0 when the denominator `sqrt(S1 * S2)` vanishes. -/
noncomputable def calculateCorrelation (returns1 returns2 : List ℝ) : ℝ :=
  if returns1.length ≠ returns2.length ∨ returns1.length < 2 then 0
  else
    let minLength := min returns1.length returns2.length
    let r1 := returns1.drop (returns1.length - minLength)
    let r2 := returns2.drop (returns2.length - minLength)
    let mean1 := (r1.foldl (· + ·) 0) / (r1.length : ℝ)
    let mean2 := (r2.foldl (· + ·) 0) / (r2.length : ℝ)
    let s := corrAccum mean1 mean2 (r1.zip r2)
    let denominator := Real.sqrt (s.2.1 * s.2.2)
    if denominator = 0 then 0 else s.1 / denominator

/-- Concrete input: 35 candles with strictly increasing closes 1, 2, …, 35
and strictly increasing dates — the minimal length accepted by MACD with
the default periods 12/26/9. -/
def upData35 : List Candle := (List.range 35).map (fun i => ⟨i, (i : ℚ) + 1⟩)

/-- Concrete input: 10 candles (hence 9 return observations). -/
def tenCandles : List Candle := (List.range 10).map (fun i => ⟨i, (i : ℚ) + 1⟩)

/-- The return series of the spec's Scenario C:
`[0.01, -0.02, 0.015, -0.01, 0.02, -0.03, 0.005]`. -/
def scenarioCReturns : List ℚ := [1/100, -1/50, 3/200, -1/100, 1/50, -3/100, 1/200]

/-- Concrete input: two signals at conservative strategy giving a bullish
percentage of exactly 69 (weight 69 bullish, weight 31 neutral). -/
def signals69 : List TradingSignal := [⟨"bullish", 69⟩, ⟨"neutral", 31⟩]

/-! ## Helper lemmas -/

lemma jsSum_eq_sum (l : List ℚ) : jsSum l = l.sum := by
  have h : ∀ (init : ℚ), l.foldl (· + ·) init = init + l.sum := by
    induction l with
    | nil => intro init; simp
    | cons x xs ih => intro init; simp [List.foldl_cons, ih, List.sum_cons]; ring
  simpa using h 0

lemma calculateReturns_length (data : List Candle) :
    (calculateReturns data).length = data.length - 1 := by
  simp only [calculateReturns, List.length_map, List.length_zip, List.length_tail]
  omega

/-! ## Claim C2 -/

/-- Claim C2 (counterexample): a candle series of exactly 10 points,
which yields only 9 return observations, is accepted by the
risk-metrics data-sufficiency check, contradicting the claim that it
must be rejected. -/
theorem C2_ten_candles_accepted :
    calculateRiskMetricsCheck tenCandles = Except.ok () ∧
      (calculateReturns tenCandles).length = 9 := by
  constructor
  · rfl
  · rw [calculateReturns_length]; rfl

/-- Claim C2 (amended): the risk-metrics operation fails with the
insufficient-data error exactly when the input has fewer than 10 candles,
i.e. fewer than 9 return observations; it passes the check at 10 candles
(9 returns) and above. -/
theorem C2_risk_check_threshold (historicalData : List Candle) :
    (calculateRiskMetricsCheck historicalData =
        Except.error "Insufficient data for risk calculations"
      ↔ (calculateReturns historicalData).length < 9) ∧
    (calculateRiskMetricsCheck historicalData = Except.ok ()
      ↔ 9 ≤ (calculateReturns historicalData).length) := by
  rw [calculateReturns_length]
  unfold calculateRiskMetricsCheck
  split <;> constructor <;> constructor <;> intro h <;> first
    | omega
    | simp_all

/-! ## Claim C4 -/

/-- Claim C4 (counterexample): for the asset returns `[0.1, 0.2, 0.3]`
(3 points) and benchmark returns `[0.1, 0.3]` (2 points),
`calculateBeta` returns the default value 1, while the
covariance/variance of the pair trimmed to the shorter length from the
most recent end is 1/2 ≠ 1 — so the claim that mismatched lengths are
aligned by trimming is false. -/
theorem C4_mismatched_beta_counterexample :
    calculateBeta [1/10, 2/10, 3/10] [1/10, 3/10] = 1 ∧
    calculateCovariance [2/10, 3/10] [1/10, 3/10] /
      calculateVariance [1/10, 3/10] = 1/2 ∧
    (1/2 : ℚ) ≠ 1 := by
  refine ⟨?_, ?_, by norm_num⟩
  · unfold calculateBeta
    rw [if_pos (Or.inl (by decide))]
  · norm_num [calculateCovariance, calculateVariance, jsSum]

/-- Claim C4 (amended): when `calculateBeta` receives series of
different lengths it does not trim and recompute — it returns the
default beta 1; the trimming code path only runs for equal-length
series, where it is a no-op. -/
theorem C4_mismatched_beta_default (returns benchmarkReturns : List ℚ)
    (h : returns.length ≠ benchmarkReturns.length) :
    calculateBeta returns benchmarkReturns = 1 := by
  unfold calculateBeta
  rw [if_pos (Or.inl h)]

/-- Witness for C4: the amended theorem applied to the concrete
mismatched pair from the counterexample. -/
theorem C4_mismatched_beta_default_witness :
    ([1/10, 2/10, 3/10] : List ℚ).length ≠ ([1/10, 3/10] : List ℚ).length ∧
      calculateBeta [1/10, 2/10, 3/10] [1/10, 3/10] = 1 :=
  ⟨by decide, C4_mismatched_beta_default _ _ (by decide)⟩

/-! ## Claims C3 and C9 -/

/-- Core computation of `calculateVaR` under the claims' preconditions:
the floor index is in range, the sorted read succeeds, and the result is
that element of the original series times 100. -/
lemma calculateVaR_eq (returns : List ℚ) (confidence : ℚ)
    (hne : returns ≠ []) (hc0 : 0 < confidence) (hc1 : confidence < 1) :
    ∃ (i : ℕ) (a : ℚ), (i : ℤ) = ⌊(1 - confidence) * (returns.length : ℚ)⌋ ∧
      i < returns.length ∧
      (returns.insertionSort (· ≤ ·)).get? i = some a ∧ a ∈ returns ∧
      calculateVaR returns confidence = some (a * 100) := by
  have hn : 0 < returns.length := List.length_pos.mpr hne
  have hfl0 : (0 : ℤ) ≤ ⌊(1 - confidence) * (returns.length : ℚ)⌋ := by
    apply Int.floor_nonneg.mpr
    have h1 : (0 : ℚ) ≤ 1 - confidence := by linarith
    have h2 : (0 : ℚ) ≤ (returns.length : ℚ) := by positivity
    exact mul_nonneg h1 h2
  have hflt : ⌊(1 - confidence) * (returns.length : ℚ)⌋ < (returns.length : ℤ) := by
    apply Int.floor_lt.mpr
    push_cast
    have hnq : (0 : ℚ) < (returns.length : ℚ) := by exact_mod_cast hn
    nlinarith
  have hsortlen : (returns.insertionSort (· ≤ ·)).length = returns.length :=
    List.length_insertionSort _ _
  have htn : ((⌊(1 - confidence) * (returns.length : ℚ)⌋).toNat : ℤ) =
      ⌊(1 - confidence) * (returns.length : ℚ)⌋ := Int.toNat_of_nonneg hfl0
  have hlt : (⌊(1 - confidence) * (returns.length : ℚ)⌋).toNat <
      (returns.insertionSort (· ≤ ·)).length := by
    rw [hsortlen]; omega
  refine ⟨(⌊(1 - confidence) * (returns.length : ℚ)⌋).toNat,
    (returns.insertionSort (· ≤ ·)).get ⟨_, hlt⟩, htn, by omega,
    List.get?_eq_get hlt, ?_, ?_⟩
  · exact (List.perm_insertionSort (· ≤ ·) returns).subset (List.get_mem _ _ hlt)
  · unfold calculateVaR
    simp only [hsortlen]
    rw [if_neg (by omega)]
    rw [List.get?_eq_get hlt]
    rfl

/-- Claim C3: for a non-empty return series and confidence strictly
between 0 and 1, `calculateVaR` returns the element at index
`floor((1 - confidence) * n)` of the series sorted ascending,
multiplied by 100.  `l` is any sorted permutation of the series (the
sorted order is unique). -/
theorem C3_var_rank (returns : List ℚ) (confidence : ℚ) (l : List ℚ)
    (hne : returns ≠ []) (hc0 : 0 < confidence) (hc1 : confidence < 1)
    (hperm : l.Perm returns) (hsort : l.Sorted (· ≤ ·)) :
    ∃ (i : ℕ) (v : ℚ), (i : ℤ) = ⌊(1 - confidence) * (returns.length : ℚ)⌋ ∧
      l.get? i = some v ∧ calculateVaR returns confidence = some (v * 100) := by
  have hl : l = returns.insertionSort (· ≤ ·) :=
    List.eq_of_perm_of_sorted (hperm.trans (List.perm_insertionSort _ _).symm) hsort
      (List.sorted_insertionSort _ _)
  obtain ⟨i, a, hi, hin, hget, hmem, hvar⟩ := calculateVaR_eq returns confidence hne hc0 hc1
  exact ⟨i, a, hi, by rw [hl]; exact hget, hvar⟩

/-- Witness for C3: Scenario C of the spec, the return series
`[0.01, -0.02, 0.015, -0.01, 0.02, -0.03, 0.005]` at confidence 0.95. -/
theorem C3_var_rank_witness :
    ∃ (i : ℕ) (v : ℚ), (i : ℤ) = ⌊(1 - 19/20) * ((scenarioCReturns.length : ℚ))⌋ ∧
      (scenarioCReturns.insertionSort (· ≤ ·)).get? i = some v ∧
      calculateVaR scenarioCReturns (19/20) = some (v * 100) :=
  C3_var_rank scenarioCReturns (19/20) (scenarioCReturns.insertionSort (· ≤ ·))
    (by decide) (by norm_num) (by norm_num)
    (List.perm_insertionSort _ _) (List.sorted_insertionSort _ _)

/-- Claim C9: for a non-empty return series and confidence strictly
between 0 and 1 (which makes the VaR rank index in range), the expected
shortfall never exceeds the VaR value for the same inputs. -/
theorem C9_es_le_var (returns : List ℚ) (confidence : ℚ)
    (hne : returns ≠ []) (hc0 : 0 < confidence) (hc1 : confidence < 1) :
    ∃ es v, calculateExpectedShortfall returns confidence = some es ∧
      calculateVaR returns confidence = some v ∧ es ≤ v := by
  obtain ⟨i, a, hi, hin, hget, hmem, hvar⟩ := calculateVaR_eq returns confidence hne hc0 hc1
  have hdiv : a * 100 / 100 = a := mul_div_cancel_right₀ a (by norm_num)
  unfold calculateExpectedShortfall
  rw [hvar]
  simp only [hdiv]
  by_cases hzero : (returns.filter (fun ret => decide (ret ≤ a))).length = 0
  · rw [if_pos hzero]
    exact ⟨a * 100, a * 100, rfl, rfl, le_refl _⟩
  · rw [if_neg hzero]
    refine ⟨_, a * 100, rfl, rfl, ?_⟩
    have hall : ∀ x ∈ returns.filter (fun ret => decide (ret ≤ a)), x ≤ a := by
      intro x hx
      exact of_decide_eq_true (List.mem_filter.mp hx).2
    have hsum := List.sum_le_card_nsmul _ _ hall
    rw [nsmul_eq_mul] at hsum
    have hlen : (0 : ℚ) < ((returns.filter (fun ret => decide (ret ≤ a))).length : ℚ) := by
      exact_mod_cast Nat.pos_of_ne_zero hzero
    have hmean : jsSum (returns.filter (fun ret => decide (ret ≤ a))) /
        ((returns.filter (fun ret => decide (ret ≤ a))).length : ℚ) ≤ a := by
      rw [jsSum_eq_sum, div_le_iff₀ hlen]
      calc (returns.filter (fun ret => decide (ret ≤ a))).sum
          ≤ ((returns.filter (fun ret => decide (ret ≤ a))).length : ℚ) * a := hsum
        _ = a * ((returns.filter (fun ret => decide (ret ≤ a))).length : ℚ) := by ring
    exact mul_le_mul_of_nonneg_right hmean (by norm_num : (0 : ℚ) ≤ 100)

/-- Witness for C9: the same Scenario C input at confidence 0.95. -/
theorem C9_es_le_var_witness :
    ∃ es v, calculateExpectedShortfall scenarioCReturns (19/20) = some es ∧
      calculateVaR scenarioCReturns (19/20) = some v ∧ es ≤ v :=
  C9_es_le_var scenarioCReturns (19/20) (by decide) (by norm_num) (by norm_num)

/-! ## Claims C5 and C10 -/

lemma closeChanges_length (data : List Candle) :
    (closeChanges data).length = data.length - 1 := by
  simp only [closeChanges, List.length_map, List.length_zip, List.length_tail]
  omega

lemma rsiLoop_length (period : ℕ) (pairs : List (ℚ × ℚ)) :
    ∀ (ag al : ℚ), (rsiLoop period ag al pairs).length = pairs.length := by
  induction pairs with
  | nil => intro ag al; rfl
  | cons p rest ih =>
    intro ag al
    obtain ⟨g, l⟩ := p
    simpa [rsiLoop] using ih _ _

lemma rsiValues_length (data : List Candle) (period : ℕ) :
    (rsiValues data period).length = (data.length - 1) - period := by
  have hg : (rsiGains data).length = data.length - 1 := by
    simp [rsiGains, closeChanges_length]
  have hl : (rsiLosses data).length = data.length - 1 := by
    simp [rsiLosses, closeChanges_length]
  simp only [rsiValues, rsiLoop_length, List.length_drop, List.length_zip, hg, hl]
  omega

lemma rsiGains_nonneg (data : List Candle) : ∀ x ∈ rsiGains data, 0 ≤ x := by
  intro x hx
  obtain ⟨change, _, hc⟩ := List.mem_map.mp hx
  subst hc
  split <;> [linarith; exact le_refl 0]

lemma rsiLosses_nonneg (data : List Candle) : ∀ x ∈ rsiLosses data, 0 ≤ x := by
  intro x hx
  obtain ⟨change, _, hc⟩ := List.mem_map.mp hx
  subst hc
  split <;> [exact abs_nonneg _; exact le_refl 0]

lemma jsSum_nonneg (l : List ℚ) (h : ∀ x ∈ l, 0 ≤ x) : 0 ≤ jsSum l := by
  rw [jsSum_eq_sum]
  exact List.sum_nonneg h

/-- Every value produced by the Wilder smoothing loop lies in [0, 100],
provided the running averages start nonnegative, every gain/loss pair is
nonnegative, and the period is at least 1. -/
lemma rsiLoop_bounds (period : ℕ) (hp : 1 ≤ period) (pairs : List (ℚ × ℚ)) :
    ∀ (ag al : ℚ), 0 ≤ ag → 0 ≤ al → (∀ p ∈ pairs, 0 ≤ p.1 ∧ 0 ≤ p.2) →
      ∀ x ∈ rsiLoop period ag al pairs, 0 ≤ x ∧ x ≤ 100 := by
  induction pairs with
  | nil => intro ag al _ _ _ x hx; simp [rsiLoop] at hx
  | cons p rest ih =>
    intro ag al hag hal hpairs x hx
    obtain ⟨g, l⟩ := p
    have hg : 0 ≤ g := (hpairs (g, l) (by simp)).1
    have hl : 0 ≤ l := (hpairs (g, l) (by simp)).2
    have hp1 : (0 : ℚ) ≤ (period : ℚ) - 1 := by
      have : (1 : ℚ) ≤ (period : ℚ) := by exact_mod_cast hp
      linarith
    have hpq : (0 : ℚ) ≤ (period : ℚ) := by positivity
    have hag2 : 0 ≤ (ag * ((period : ℚ) - 1) + g) / (period : ℚ) :=
      div_nonneg (add_nonneg (mul_nonneg hag hp1) hg) hpq
    have hal2 : 0 ≤ (al * ((period : ℚ) - 1) + l) / (period : ℚ) :=
      div_nonneg (add_nonneg (mul_nonneg hal hp1) hl) hpq
    simp only [rsiLoop, List.mem_cons] at hx
    rcases hx with hx | hx
    · subst hx
      set al2 := (al * ((period : ℚ) - 1) + l) / (period : ℚ) with hal2def
      have hd : (0 : ℚ) < if al2 = 0 then 1 / 100 else al2 := by
        split
        · norm_num
        · rename_i hne
          exact lt_of_le_of_ne hal2 (Ne.symm hne)
      have hrs : 0 ≤ (ag * ((period : ℚ) - 1) + g) / (period : ℚ) /
          (if al2 = 0 then 1 / 100 else al2) := div_nonneg hag2 (le_of_lt hd)
      set rs := (ag * ((period : ℚ) - 1) + g) / (period : ℚ) /
          (if al2 = 0 then 1 / 100 else al2) with hrsdef
      have h1rs : (0 : ℚ) < 1 + rs := by linarith
      constructor
      · have : 100 / (1 + rs) ≤ 100 := by
          rw [div_le_iff₀ h1rs]
          nlinarith
        linarith
      · have : 0 < 100 / (1 + rs) := by positivity
        linarith
    · exact ih _ _ hag2 hal2 (fun q hq => hpairs q (List.mem_cons_of_mem _ hq)) x hx

/-- All RSI values of a series are within [0, 100] for period ≥ 1. -/
lemma rsiValues_bounds (data : List Candle) (period : ℕ) (hp : 1 ≤ period) :
    ∀ x ∈ rsiValues data period, 0 ≤ x ∧ x ≤ 100 := by
  apply rsiLoop_bounds period hp
  · exact div_nonneg
      (jsSum_nonneg _ (fun x hx => rsiGains_nonneg data x (List.mem_of_mem_take hx)))
      (by positivity)
  · exact div_nonneg
      (jsSum_nonneg _ (fun x hx => rsiLosses_nonneg data x (List.mem_of_mem_take hx)))
      (by positivity)
  · intro p hp2
    have hz := List.of_mem_zip (List.mem_of_mem_drop hp2)
    exact ⟨rsiGains_nonneg data p.1 hz.1, rsiLosses_nonneg data p.2 hz.2⟩

/-- Claim C5 (counterexample): at exactly `period + 1` candles — the
minimum accepted by the precondition — the RSI value array is empty, so
the reported current value is `undefined` (`none`), not a number in
[0, 100]; the signal falls through to `neutral`. -/
theorem C5_rsi_min_length_undefined :
    ∃ r, calculateRSI [⟨0, 1⟩, ⟨1, 2⟩, ⟨2, 1⟩] 2 = Except.ok r ∧
      r.current_value = none ∧ r.signal = "neutral" := by
  refine ⟨_, rfl, ?_, ?_⟩ <;> rfl

/-- Claim C5 (amended): for every candle series of length at least
`period + 2` (one more than the precondition's minimum) and period ≥ 2,
the RSI current value is a defined number in [0, 100]. -/
theorem C5_rsi_bounds (data : List Candle) (period : ℕ)
    (hp : 2 ≤ period) (hlen : period + 2 ≤ data.length) :
    ∃ r v, calculateRSI data period = Except.ok r ∧
      r.current_value = some v ∧ 0 ≤ v ∧ v ≤ 100 := by
  have hne : rsiValues data period ≠ [] := by
    have hlen2 := rsiValues_length data period
    intro h
    rw [h] at hlen2
    simp at hlen2
    omega
  have hv := List.getLast?_eq_getLast (rsiValues data period) hne
  have hb := rsiValues_bounds data period (by omega) _ (List.getLast_mem hne)
  unfold calculateRSI
  rw [if_neg (by omega)]
  exact ⟨_, _, rfl, hv, hb.1, hb.2⟩

/-- Witness for C5: four candles, period 2. -/
theorem C5_rsi_bounds_witness :
    ∃ r v, calculateRSI [⟨0, 1⟩, ⟨1, 2⟩, ⟨2, 1⟩, ⟨3, 2⟩] 2 = Except.ok r ∧
      r.current_value = some v ∧ 0 ≤ v ∧ v ≤ 100 :=
  C5_rsi_bounds [⟨0, 1⟩, ⟨1, 2⟩, ⟨2, 1⟩, ⟨3, 2⟩] 2 (by decide) (by decide)

lemma closeChanges_const (data : List Candle) (c : ℚ) (hconst : ∀ x ∈ data, x.close = c) :
    ∀ y ∈ closeChanges data, y = 0 := by
  intro y hy
  simp only [closeChanges, List.mem_map] at hy
  obtain ⟨p, hp, hpy⟩ := hy
  have hz := List.of_mem_zip hp
  obtain ⟨a, ha, hac⟩ := List.mem_map.mp hz.1
  obtain ⟨b, hb, hbc⟩ := List.mem_map.mp (List.mem_of_mem_tail hz.2)
  rw [← hpy, ← hac, ← hbc, hconst a ha, hconst b hb]
  ring

/-- On all-zero gain/loss pairs with zero seeds, every Wilder-loop value
is exactly 0 (the epsilon floor 0.01 makes RS = 0, hence RSI = 0). -/
lemma rsiLoop_zeros (period : ℕ) (pairs : List (ℚ × ℚ)) :
    (∀ p ∈ pairs, p.1 = 0 ∧ p.2 = 0) → ∀ x ∈ rsiLoop period 0 0 pairs, x = 0 := by
  induction pairs with
  | nil => intro _ x hx; simp [rsiLoop] at hx
  | cons p rest ih =>
    intro hpairs x hx
    obtain ⟨g, l⟩ := p
    have hg : g = 0 := (hpairs (g, l) (by simp)).1
    have hl : l = 0 := (hpairs (g, l) (by simp)).2
    subst hg hl
    simp only [rsiLoop, zero_mul, zero_add, zero_div, List.mem_cons] at hx
    rcases hx with hx | hx
    · subst hx
      norm_num
    · exact ih (fun q hq => hpairs q (List.mem_cons_of_mem _ hq)) x hx

/-- Claim C10: on a constant-close candle series of length ≥ period + 2,
average gain and loss are both 0, the epsilon floor makes RS = 0, so
`calculateRSI` reports current value 0 and classifies it `oversold`
(0 < 30), not `neutral`. -/
theorem C10_rsi_constant_oversold (data : List Candle) (c : ℚ) (period : ℕ)
    (hconst : ∀ x ∈ data, x.close = c) (hlen : period + 2 ≤ data.length) :
    ∃ r, calculateRSI data period = Except.ok r ∧
      r.current_value = some 0 ∧ r.signal = "oversold" := by
  have hchanges := closeChanges_const data c hconst
  have hgains : ∀ x ∈ rsiGains data, x = 0 := by
    intro x hx
    obtain ⟨change, hc, hcx⟩ := List.mem_map.mp hx
    rw [hchanges change hc] at hcx
    simpa using hcx.symm
  have hlosses : ∀ x ∈ rsiLosses data, x = 0 := by
    intro x hx
    obtain ⟨change, hc, hcx⟩ := List.mem_map.mp hx
    rw [hchanges change hc] at hcx
    simpa using hcx.symm
  have hseedg : jsSum ((rsiGains data).take period) / (period : ℚ) = 0 := by
    rw [jsSum_eq_sum,
      List.sum_eq_zero (fun x hx => hgains x (List.mem_of_mem_take hx)), zero_div]
  have hseedl : jsSum ((rsiLosses data).take period) / (period : ℚ) = 0 := by
    rw [jsSum_eq_sum,
      List.sum_eq_zero (fun x hx => hlosses x (List.mem_of_mem_take hx)), zero_div]
  have hzeros : ∀ x ∈ rsiValues data period, x = 0 := by
    unfold rsiValues
    rw [hseedg, hseedl]
    apply rsiLoop_zeros
    intro p hp
    have hz := List.of_mem_zip (List.mem_of_mem_drop hp)
    exact ⟨hgains p.1 hz.1, hlosses p.2 hz.2⟩
  have hne : rsiValues data period ≠ [] := by
    have hlen2 := rsiValues_length data period
    intro h
    rw [h] at hlen2
    simp at hlen2
    omega
  have hv := List.getLast?_eq_getLast (rsiValues data period) hne
  have hv0 : (rsiValues data period).getLast? = some 0 := by
    rw [hv, hzeros _ (List.getLast_mem hne)]
  unfold calculateRSI
  rw [if_neg (by omega)]
  refine ⟨_, rfl, ?_, ?_⟩
  · exact hv0
  · show (match (rsiValues data period).getLast? with
      | some v => if 70 < v then "overbought"
                  else if v < 30 then "oversold" else "neutral"
      | none => "neutral") = "oversold"
    rw [hv0]
    norm_num

/-- Witness for C10: four candles all closing at 100, period 2. -/
theorem C10_rsi_constant_oversold_witness :
    ∃ r, calculateRSI [⟨0, 100⟩, ⟨1, 100⟩, ⟨2, 100⟩, ⟨3, 100⟩] 2 = Except.ok r ∧
      r.current_value = some 0 ∧ r.signal = "oversold" :=
  C10_rsi_constant_oversold [⟨0, 100⟩, ⟨1, 100⟩, ⟨2, 100⟩, ⟨3, 100⟩] 100 2
    (by decide) (by decide)

/-! ## Claim C6 -/

/-- The accumulator pass of `calculateOverallSignal` computes exactly
the filtered weight sums: bullish weight, bearish weight, total weight. -/
lemma signalScores_eq (signals : List TradingSignal) :
    signalScores signals =
      (((signals.filter (fun s => s.signal = "bullish" ∨ s.signal = "buy")).map
          TradingSignal.weight).sum,
       ((signals.filter (fun s => s.signal = "bearish" ∨ s.signal = "sell")).map
          TradingSignal.weight).sum,
       (signals.map TradingSignal.weight).sum) := by
  suffices h : ∀ init : ℚ × ℚ × ℚ,
      signals.foldl
        (fun acc s =>
          if s.signal = "bullish" ∨ s.signal = "buy" then
            (acc.1 + s.weight, acc.2.1, acc.2.2 + s.weight)
          else if s.signal = "bearish" ∨ s.signal = "sell" then
            (acc.1, acc.2.1 + s.weight, acc.2.2 + s.weight)
          else (acc.1, acc.2.1, acc.2.2 + s.weight))
        init =
      (init.1 + ((signals.filter (fun s => s.signal = "bullish" ∨ s.signal = "buy")).map
          TradingSignal.weight).sum,
       init.2.1 + ((signals.filter (fun s => s.signal = "bearish" ∨ s.signal = "sell")).map
          TradingSignal.weight).sum,
       init.2.2 + (signals.map TradingSignal.weight).sum) by
    unfold signalScores
    rw [h (0, 0, 0)]
    simp
  induction signals with
  | nil => intro init; simp
  | cons s rest ih =>
    intro init
    simp only [List.foldl_cons, List.filter_cons, List.map_cons, List.sum_cons]
    rw [ih]
    by_cases hb : s.signal = "bullish" ∨ s.signal = "buy"
    · have hnb : ¬ (s.signal = "bearish" ∨ s.signal = "sell") := by
        rcases hb with h | h <;> rw [h] <;> decide
      simp [hb, hnb, add_assoc]
    · by_cases hbe : s.signal = "bearish" ∨ s.signal = "sell"
      · simp [hb, hbe, add_assoc]
      · simp [hb, hbe, add_assoc]

/-- Claim C6: the aggregated signal is `buy` exactly when the bullish
weight percentage strictly exceeds the strategy threshold
(conservative 70, moderate 60, aggressive 55), `sell` exactly when it is
not `buy` and the bearish percentage strictly exceeds the threshold,
`hold` otherwise; the confidence is `|bullish% - bearish%|` capped at
100. -/
theorem C6_overall_signal_spec (signals : List TradingSignal) (strategy : String)
    (hT : 0 < (signals.map TradingSignal.weight).sum) :
    (getSignalThreshold "conservative" = 70 ∧ getSignalThreshold "moderate" = 60 ∧
        getSignalThreshold "aggressive" = 55) ∧
    ((calculateOverallSignal signals strategy).1 = "buy" ↔
        getSignalThreshold strategy < specBullishPercent signals) ∧
    ((calculateOverallSignal signals strategy).1 = "sell" ↔
        (¬ getSignalThreshold strategy < specBullishPercent signals ∧
          getSignalThreshold strategy < specBearishPercent signals)) ∧
    ((calculateOverallSignal signals strategy).1 = "hold" ↔
        (¬ getSignalThreshold strategy < specBullishPercent signals ∧
          ¬ getSignalThreshold strategy < specBearishPercent signals)) ∧
    (calculateOverallSignal signals strategy).2 =
        min |specBullishPercent signals - specBearishPercent signals| 100 := by
  have hout : calculateOverallSignal signals strategy =
      (if getSignalThreshold strategy < specBullishPercent signals then "buy"
       else if getSignalThreshold strategy < specBearishPercent signals then "sell"
       else "hold",
       min |specBullishPercent signals - specBearishPercent signals| 100) := by
    unfold calculateOverallSignal specBullishPercent specBearishPercent
    rw [signalScores_eq]
  refine ⟨⟨rfl, rfl, rfl⟩, ?_⟩
  rw [hout]
  by_cases h1 : getSignalThreshold strategy < specBullishPercent signals
  · simp [h1]
  · by_cases h2 : getSignalThreshold strategy < specBearishPercent signals
    · simp [h1, h2]
    · simp [h1, h2]

/-- Witness for C6: with a bullish signal of weight 69 and a neutral
signal of weight 31 at strategy `conservative`, the bullish percentage
is exactly 69, which does not exceed the threshold 70, so the overall
signal is `hold` with confidence 69. -/
theorem C6_overall_signal_witness :
    0 < (signals69.map TradingSignal.weight).sum ∧
      specBullishPercent signals69 = 69 ∧ specBearishPercent signals69 = 0 ∧
      (calculateOverallSignal signals69 "conservative").1 = "hold" ∧
      (calculateOverallSignal signals69 "conservative").2 = 69 := by
  have hT : 0 < (signals69.map TradingSignal.weight).sum := by norm_num [signals69]
  have e1 : (("bullish" : String) = "bullish" ∨ ("bullish" : String) = "buy") := Or.inl rfl
  have e2 : ¬ (("neutral" : String) = "bullish" ∨ ("neutral" : String) = "buy") := by decide
  have e3 : ¬ (("bullish" : String) = "bearish" ∨ ("bullish" : String) = "sell") := by decide
  have e4 : ¬ (("neutral" : String) = "bearish" ∨ ("neutral" : String) = "sell") := by decide
  have hbp : specBullishPercent signals69 = 69 := by
    norm_num [specBullishPercent, signals69, List.filter_cons, e1, e2]
  have hbep : specBearishPercent signals69 = 0 := by
    norm_num [specBearishPercent, signals69, List.filter_cons, e3, e4]
  have h := C6_overall_signal_spec signals69 "conservative" hT
  refine ⟨hT, hbp, hbep, ?_, ?_⟩
  · rw [h.2.2.2.1, hbp, hbep]
    constructor <;> norm_num [getSignalThreshold]
  · rw [h.2.2.2.2, hbp, hbep]
    norm_num

/-! ## Claim C7 -/

/-- Case analysis of one `calculateMaxDrawdown` iteration: the running
maximum stays nonnegative; the peak date either advances to the current
candle or is unchanged; and either nothing but the peak changed, or a
strictly positive drawdown was recorded from the (strictly earlier) peak
date to the current candle's date. -/
lemma mddStep_spec (st : MddState) (i : ℕ) (c : Candle) (h0 : 0 ≤ st.maxDrawdown)
    (hd : st.peakDate < c.date) :
    0 ≤ (mddStep st i c).maxDrawdown ∧
    ((mddStep st i c).peakDate = c.date ∨ (mddStep st i c).peakDate = st.peakDate) ∧
    ((mddStep st i c).maxDrawdown = st.maxDrawdown ∧
        (mddStep st i c).startDate = st.startDate ∧
        (mddStep st i c).endDate = st.endDate ∨
      (mddStep st i c).startDate = some st.peakDate ∧
        (mddStep st i c).endDate = some c.date ∧
        0 < (mddStep st i c).maxDrawdown ∧ st.peakDate < c.date) := by
  by_cases hup : st.peak < c.close
  · have hstep : mddStep st i c =
        { st with peak := c.close, peakIndex := i, peakDate := c.date } := by
      unfold mddStep
      rw [if_pos hup]
      dsimp only
      rw [sub_self, zero_div, if_neg (not_lt.mpr h0)]
    rw [hstep]
    exact ⟨h0, Or.inl rfl, Or.inl ⟨rfl, rfl, rfl⟩⟩
  · by_cases hrec : st.maxDrawdown < (st.peak - c.close) / st.peak
    · have hstep : mddStep st i c =
          { st with maxDrawdown := (st.peak - c.close) / st.peak, troughIndex := i,
                    troughPrice := c.close, startDate := some st.peakDate,
                    endDate := some c.date } := by
        unfold mddStep
        rw [if_neg hup]
        dsimp only
        rw [if_pos hrec]
      rw [hstep]
      refine ⟨by dsimp only; linarith, Or.inr rfl,
        Or.inr ⟨rfl, rfl, by dsimp only; linarith, hd⟩⟩
    · have hstep : mddStep st i c = st := by
        unfold mddStep
        rw [if_neg hup]
        dsimp only
        rw [if_neg hrec]
      rw [hstep]
      exact ⟨h0, Or.inr rfl, Or.inl ⟨rfl, rfl, rfl⟩⟩

/-- Loop invariant of `calculateMaxDrawdown`: along candles with
strictly increasing dates, the running maximum drawdown stays
nonnegative, and whenever it is strictly positive the recorded start
date strictly precedes the recorded end date. -/
lemma mddGo_inv (rest : List Candle) :
    ∀ (st : MddState) (i : ℕ),
      0 ≤ st.maxDrawdown →
      (∀ c ∈ rest, st.peakDate < c.date) →
      List.Pairwise (fun a b => a.date < b.date) rest →
      (0 < st.maxDrawdown →
        ∃ s e, st.startDate = some s ∧ st.endDate = some e ∧ s < e) →
      0 ≤ (mddGo st i rest).maxDrawdown ∧
      (0 < (mddGo st i rest).maxDrawdown →
        ∃ s e, (mddGo st i rest).startDate = some s ∧
          (mddGo st i rest).endDate = some e ∧ s < e) := by
  induction rest with
  | nil => intro st i h0 _ _ hrec; exact ⟨h0, hrec⟩
  | cons c rest ih =>
    intro st i h0 hdate hpw hrec
    have hpwc := List.pairwise_cons.mp hpw
    have hd : st.peakDate < c.date := hdate c (List.mem_cons_self c rest)
    obtain ⟨h0s, hpd, hcase⟩ := mddStep_spec st i c h0 hd
    rw [mddGo]
    apply ih (mddStep st i c) (i + 1) h0s
    · intro a ha
      rcases hpd with h | h
      · rw [h]; exact hpwc.1 a ha
      · rw [h]; exact hdate a (List.mem_cons_of_mem c ha)
    · exact hpwc.2
    · rcases hcase with ⟨hdd, hsd, hed⟩ | ⟨hsd, hed, hpos, hlt⟩
      · intro hp
        rw [hdd] at hp
        obtain ⟨s, e, hs, he, hse⟩ := hrec hp
        exact ⟨s, e, by rw [hsd, hs], by rw [hed, he], hse⟩
      · intro _
        exact ⟨st.peakDate, c.date, hsd, hed, hlt⟩

/-- Claim C7 (counterexample): on strictly rising closes 1, 2, 3 no
drawdown is ever recorded, yet the running peak index advances, so
`duration_days` is -2 (negative) and the start/end dates still hold the
initial sentinels — the recorded peak date does not precede the trough
date and `duration_days` is not the length of a decline.  On closes
10, 5, 20 the worst decline starts at the candle with date 0 and close
10, but the reported `peak_price` is the later, higher peak 20. -/
theorem C7_drawdown_counterexample :
    (∃ r, calculateMaxDrawdown [⟨0, 1⟩, ⟨1, 2⟩, ⟨2, 3⟩] = some r ∧
      r.duration_days = -2 ∧ r.start_date = none ∧ r.end_date = none ∧
      r.max_drawdown_percent = 0) ∧
    (∃ r, calculateMaxDrawdown [⟨0, 10⟩, ⟨1, 5⟩, ⟨2, 20⟩] = some r ∧
      r.max_drawdown_percent = 50 ∧ r.start_date = some 0 ∧ r.end_date = some 1 ∧
      r.trough_price = 5 ∧ r.peak_price = 20) := by
  constructor
  · refine ⟨_, rfl, ?_, ?_, ?_, ?_⟩ <;>
      norm_num [calculateMaxDrawdown, mddGo, mddStep]
  · refine ⟨_, rfl, ?_, ?_, ?_, ?_, ?_⟩ <;>
      norm_num [calculateMaxDrawdown, mddGo, mddStep]

/-- Claim C7 (amended): for every non-empty candle series with strictly
increasing dates, `max_drawdown_percent` is nonnegative, and whenever a
strictly positive drawdown was recorded the recorded peak (start) date
strictly precedes the recorded trough (end) date.  (The original
claim's further assertions fail: `duration_days` can be negative and
`peak_price` can be a later peak than the recorded decline's start, as
the counterexample shows.) -/
theorem C7_drawdown_amended (c0 : Candle) (rest : List Candle)
    (hdates : List.Pairwise (fun a b => a.date < b.date) (c0 :: rest)) :
    ∃ r, calculateMaxDrawdown (c0 :: rest) = some r ∧
      0 ≤ r.max_drawdown_percent ∧
      (0 < r.max_drawdown_percent →
        ∃ s e, r.start_date = some s ∧ r.end_date = some e ∧ s < e) := by
  have hpwc := List.pairwise_cons.mp hdates
  have hinv := mddGo_inv rest
    { maxDrawdown := 0, peak := c0.close, peakIndex := 0, peakDate := c0.date,
      troughIndex := 0, troughPrice := c0.close, startDate := none, endDate := none }
    1 (le_refl 0) hpwc.1 hpwc.2 (fun h => absurd h (lt_irrefl 0))
  unfold calculateMaxDrawdown
  refine ⟨_, rfl, ?_, ?_⟩
  · have := hinv.1
    simp only []
    nlinarith
  · intro h
    apply hinv.2
    simp only [] at h
    nlinarith

/-- Witness for C7: two candles, close falling from 10 to 5, dates 0
and 1. -/
theorem C7_drawdown_amended_witness :
    List.Pairwise (fun a b => a.date < b.date) [(⟨0, 10⟩ : Candle), ⟨1, 5⟩] ∧
    ∃ r, calculateMaxDrawdown [(⟨0, 10⟩ : Candle), ⟨1, 5⟩] = some r ∧
      0 ≤ r.max_drawdown_percent ∧
      (0 < r.max_drawdown_percent →
        ∃ s e, r.start_date = some s ∧ r.end_date = some e ∧ s < e) :=
  ⟨by decide, C7_drawdown_amended ⟨0, 10⟩ [⟨1, 5⟩] (by decide)⟩

/-! ## Claim C8 -/

/-- On a series zipped with itself (equal means), the correlation
accumulator returns the same nonnegative sum in all three components. -/
lemma corrAccum_self (m : ℝ) (x : List ℝ) :
    ∃ S, corrAccum m m (x.zip x) = (S, S, S) ∧ 0 ≤ S := by
  suffices h : ∀ a : ℝ, ∃ S, (x.zip x).foldl
      (fun acc p =>
        (acc.1 + (p.1 - m) * (p.2 - m),
         acc.2.1 + (p.1 - m) * (p.1 - m),
         acc.2.2 + (p.2 - m) * (p.2 - m)))
      (a, a, a) = (S, S, S) ∧ a ≤ S by
    obtain ⟨S, hS, hle⟩ := h 0
    exact ⟨S, hS, hle⟩
  induction x with
  | nil => intro a; exact ⟨a, rfl, le_refl a⟩
  | cons y ys ih =>
    intro a
    obtain ⟨S, hS, hle⟩ := ih (a + (y - m) * (y - m))
    refine ⟨S, ?_, ?_⟩
    · rw [List.zip_cons_cons, List.foldl_cons]
      exact hS
    · have := mul_self_nonneg (y - m)
      linarith

/-- Claim C8 (counterexample): the Pearson correlation of the constant
series `[1, 1]` with itself is 0, not 1 — the zero-variance saturating
policy returns the sentinel 0 even for the self-correlation. -/
theorem C8_self_correlation_constant :
    calculateCorrelation [(1 : ℝ), 1] [(1 : ℝ), 1] = 0 := by
  unfold calculateCorrelation corrAccum
  norm_num [List.zip_cons_cons, List.foldl_cons, List.foldl_nil]

/-- Claim C8 (amended): the Pearson correlation of a return series with
itself equals 1 whenever the series has at least 2 points and a nonzero
sum of squared deviations from its mean (i.e. it is not constant);
degenerate inputs return the sentinel 0 instead. -/
theorem C8_self_correlation_one (x : List ℝ) (h2 : 2 ≤ x.length)
    (hS : (corrAccum ((x.foldl (· + ·) 0) / (x.length : ℝ))
        ((x.foldl (· + ·) 0) / (x.length : ℝ)) (x.zip x)).2.1 ≠ 0) :
    calculateCorrelation x x = 1 := by
  obtain ⟨S, hSeq, hS0⟩ := corrAccum_self ((x.foldl (· + ·) 0) / (x.length : ℝ)) x
  rw [hSeq] at hS
  have hSne : S ≠ 0 := hS
  unfold calculateCorrelation
  rw [if_neg (by simp; omega)]
  dsimp only
  simp only [min_self, Nat.sub_self, List.drop_zero]
  rw [hSeq]
  dsimp only
  rw [Real.sqrt_mul_self hS0, if_neg hSne]
  exact div_self hSne

/-- Witness for C8: the non-constant series `[0, 1]`. -/
theorem C8_self_correlation_one_witness :
    2 ≤ ([(0 : ℝ), 1]).length ∧ calculateCorrelation [(0 : ℝ), 1] [(0 : ℝ), 1] = 1 := by
  refine ⟨by norm_num, ?_⟩
  apply C8_self_correlation_one _ (by norm_num)
  unfold corrAccum
  norm_num [List.zip_cons_cons, List.foldl_cons, List.foldl_nil]

/-! ## Claim C1 -/

lemma emaFrom_length (k : ℚ) (l : List ℚ) :
    ∀ prev : ℚ, (emaFrom k prev l).length = l.length := by
  induction l with
  | nil => intro prev; rfl
  | cons p ps ih => intro prev; simp [emaFrom, ih]

lemma calculateEMAValues_length (prices : List ℚ) (period : ℕ) :
    (calculateEMAValues prices period).length = prices.length := by
  cases prices with
  | nil => rfl
  | cons p ps => simp [calculateEMAValues, emaFrom_length]

lemma optSub_none_right (x : Option ℚ) : optSub x none = none := by
  cases x <;> rfl

lemma optGtB_none_left (y : Option ℚ) : optGtB none y = false := by
  cases y <;> rfl

lemma jsGet_oob (l : List ℚ) (i : ℤ) (h : (l.length : ℤ) ≤ i) : jsGet l i = none := by
  unfold jsGet
  rw [if_neg (by omega)]
  exact List.get?_eq_none.mpr (by omega)

lemma macdLineOf_length (data : List Candle) :
    (macdLineOf data 12 26).length = data.length - 25 := by
  unfold macdLineOf
  dsimp only
  rw [List.length_map, List.length_range', calculateEMAValues_length, List.length_map]

/-- With the default periods 12/26, the last entry of the MACD line —
the reported current MACD value — is NaN: it reads `slowEMA` at index
`(length - 1) + 14`, past the end of the array. -/
lemma macdCurrent_none (data : List Candle) (h : 35 ≤ data.length) :
    jsGetOpt (macdLineOf data 12 26) (((macdLineOf data 12 26).length : ℤ) - 1) = none := by
  have hlen : (macdLineOf data 12 26).length = data.length - 25 := macdLineOf_length data
  unfold jsGetOpt
  rw [if_neg (by omega)]
  have htn : ((((macdLineOf data 12 26).length : ℤ) - 1).toNat) = data.length - 26 := by
    omega
  rw [htn]
  unfold macdLineOf
  dsimp only
  rw [List.get?_eq_getElem?, List.getElem?_map]
  have hmn : data.length - 26 <
      (calculateEMAValues (data.map Candle.close) 12).length - (26 - 1) := by
    rw [calculateEMAValues_length, List.length_map]
    omega
  rw [List.getElem?_range' _ _ hmn, Option.map_some']
  have hidx : 26 - 1 + 1 * (data.length - 26) = data.length - 1 := by omega
  rw [hidx]
  show optSub (jsGet (calculateEMAValues (data.map Candle.close) 12) ((data.length - 1 : ℕ) : ℤ))
      (jsGet (calculateEMAValues (data.map Candle.close) 26)
        (((data.length - 1 : ℕ) : ℤ) - ((12 : ℤ) - (26 : ℤ)))) = none
  rw [jsGet_oob (calculateEMAValues (data.map Candle.close) 26)
    (((data.length - 1 : ℕ) : ℤ) - ((12 : ℤ) - (26 : ℤ)))
    (by rw [calculateEMAValues_length, List.length_map]; omega)]
  exact optSub_none_right _

/-- For any candle series long enough to pass the MACD guard with the
default periods 12/26/9, the reported current MACD value is NaN
(`none`) and the comparison `NaN > signal` is false, so the signal is
always `bearish`. -/
lemma calculateMACD_defaults_bearish (data : List Candle) (h : 35 ≤ data.length) :
    ∃ r, calculateMACD data 12 26 9 = Except.ok r ∧
      r.macd_line = none ∧ r.signal = "bearish" := by
  have hnone := macdCurrent_none data h
  unfold calculateMACD
  rw [if_neg (by omega)]
  refine ⟨_, rfl, hnone, ?_⟩
  show (if optGtB
      (jsGetOpt (macdLineOf data 12 26) (((macdLineOf data 12 26).length : ℤ) - 1))
      (jsGetOpt (macdSignalLineOf data 12 26 9)
        (((macdSignalLineOf data 12 26 9).length : ℤ) - 1))
    then "bullish" else "bearish") = "bearish"
  rw [hnone, optGtB_none_left]
  rfl

lemma upData35_length : upData35.length = 35 := by
  simp [upData35]

lemma upData35_increasing : List.Pairwise (fun a b => a.close < b.close) upData35 := by
  unfold upData35
  rw [List.pairwise_map]
  apply List.Pairwise.imp ?_ (List.pairwise_lt_range 35)
  intro a b hab
  dsimp only
  have hq : (a : ℚ) < (b : ℚ) := by exact_mod_cast hab
  linarith

/-- Claim C1: on the strictly increasing 35-point close series 1..35 —
long enough for the default MACD(12, 26, 9) — the computation does not
produce a bullish signal: the MACD line's current value is NaN (the
slow-EMA index `i - (12 - 26) = i + 14` runs past the end of the
array), and the NaN comparison makes the reported signal `bearish`,
contradicting the claimed (and spec-intended) `bullish`. -/
theorem C1_macd_uptrend_bug :
    List.Pairwise (fun a b => a.close < b.close) upData35 ∧
    upData35.length = 26 + 9 ∧
    ∃ r, calculateMACD upData35 12 26 9 = Except.ok r ∧
      r.macd_line = none ∧ r.signal = "bearish" :=
  ⟨upData35_increasing, upData35_length,
    calculateMACD_defaults_bearish upData35 (by rw [upData35_length])⟩
